import Mathlib

/-!
Verification of the natural-forest classification lambda
(src/backend/lambda/lambda_function.py, with the duplicate copy
src/lambda/lambda_function.py modelled separately where the two differ).

Python floats are modelled as rationals, Python int() / math.floor on the
nonnegative values arising here as Int.floor, math.ceil as Int.ceil, and
round(x, 5) as rounding half to even at five decimals.  Remote services
(Earth Engine, S3, HTTP downloads) are external collaborators: their
responses are environment parameters of the model.
-/

/-- Models Python round-half-to-even of a rational to an integer. -/
def pyRound (q : ℚ) : ℤ :=
  if q - ⌊q⌋ < 1/2 then ⌊q⌋
  else if 1/2 < q - ⌊q⌋ then ⌊q⌋ + 1
  else if ⌊q⌋ % 2 = 0 then ⌊q⌋ else ⌊q⌋ + 1

/-- Models Python round(x, 5): round half to even at five decimal places. -/
def pyRound5 (q : ℚ) : ℚ := (pyRound (q * 100000) : ℚ) / 100000

/-- The eleven fixed class names of calculate_area_statistics
(src/backend/lambda/lambda_function.py lines 524-525). -/
def CLASS_NAMES : List String :=
  ["water", "trees", "grass", "flooded_vegetation", "crops", "shrub_and_scrub",
   "built", "bare", "snow_and_ice", "cloud", "natural_forest"]

/-- Models pixel_sum of calculate_area_statistics (backend lines 531-532):
the histogram entries with class index below 11 are kept and their counts
summed.  The histogram is a list of (class code, pixel count) pairs with
distinct keys, modelling the Python dict returned by reduceRegion. -/
def pixelSum (hist : List (Nat × ℚ)) : ℚ :=
  ((hist.filter (fun p => p.1 < 11)).map Prod.snd).sum

/-- Count recorded in the histogram for class i, zero if absent. -/
def classCount (hist : List (Nat × ℚ)) (i : Nat) : ℚ :=
  match hist.find? (fun p => p.1 == i) with
  | some p => p.2
  | none => 0

/-- Whether class i occurs in the histogram. -/
def classPresent (hist : List (Nat × ℚ)) (i : Nat) : Bool :=
  (hist.find? (fun p => p.1 == i)).isSome

/-- Models the areas dict of calculate_area_statistics (backend lines
533-537): classes present in the histogram get round((v / pixel_sum) *
total_area, 5) when pixel_sum is nonzero and 0.0 otherwise; absent classes
are filled with 0.0 by setdefault. -/
def classArea (hist : List (Nat × ℚ)) (total_area : ℚ) (i : Nat) : ℚ :=
  if classPresent hist i then
    (if pixelSum hist ≠ 0 then pyRound5 (classCount hist i / pixelSum hist * total_area) else 0)
  else 0

/-- The statistics document written by calculate_area_statistics
(backend lines 542-557).  land_cover_classes entries are
(name, area_km2, percentage) triples. -/
structure StatsData where
  date : String
  total_area_km2 : ℚ
  forest_area_km2 : ℚ
  natural_forest_km2 : ℚ
  natural_forest_percentage : ℚ
  other_trees_km2 : ℚ
  other_trees_percentage : ℚ
  land_cover_classes : List (String × ℚ × ℚ)
deriving DecidableEq

/-- Stable descending insertion for (name, area) pairs. -/
def insertAreaDesc (p : String × ℚ) : List (String × ℚ) → List (String × ℚ)
  | [] => [p]
  | q :: rest => if q.2 < p.2 then p :: q :: rest else q :: insertAreaDesc p rest

/-- Models Python sorted(areas.items(), key area, reverse True):
a stable descending sort by area. -/
def sortAreaDesc (l : List (String × ℚ)) : List (String × ℚ) :=
  l.foldl (fun acc p => insertAreaDesc p acc) []

/-- Models calculate_area_statistics (backend lines 523-561).  The remote
reduceRegion histogram is the hist parameter; the returned pair is the
stats document and the stats file name. -/
def calculate_area_statistics (hist : List (Nat × ℚ)) (total_area : ℚ)
    (image_date : String) : StatsData × String :=
  let nf_area := classArea hist total_area 10
  let tree_area := classArea hist total_area 1
  let total_forest := nf_area + tree_area
  let areas := (List.range 11).map (fun i => (CLASS_NAMES.getD i "", classArea hist total_area i))
  let lcc := ((sortAreaDesc areas).filter (fun p => 0 < p.2)).map
    (fun p => (p.1, p.2, if total_area ≠ 0 then pyRound5 (p.2 / total_area * 100) else 0))
  (StatsData.mk image_date (pyRound5 total_area) (pyRound5 total_forest) (pyRound5 nf_area)
    (if total_forest ≠ 0 then pyRound5 (nf_area / total_forest * 100) else 0)
    (pyRound5 tree_area)
    (if total_forest ≠ 0 then pyRound5 (tree_area / total_forest * 100) else 0)
    lcc,
   "natural_forest_stats_" ++ image_date ++ ".json")

/-- Axis-aligned geographic rectangle (west, south, east, north), as
returned by shapely box bounds. -/
structure Rect where
  minx : ℚ
  miny : ℚ
  maxx : ℚ
  maxy : ℚ
deriving DecidableEq

/-- Width of the box in kilometers (backend lines 314-318).  The parameter
c stands for math.cos(math.radians(lat_mid)), kept symbolic because cosine
is transcendental; km_per_deg_lon = 111 * c. -/
def widthKm (c : ℚ) (bb : Rect) : ℚ := (bb.maxx - bb.minx) * (111 * c)

/-- Height of the box in kilometers, km_per_deg_lat = 111 (backend line 319). -/
def heightKm (bb : Rect) : ℚ := (bb.maxy - bb.miny) * 111

/-- Models the adaptive-sizing line of split_boundary_box (backend lines
324-325): when the area proxy exceeds 1000, max_size_km is replaced by
min(60, max(30, max_size_km)). -/
def adaptMaxSize (max_size_km w h : ℚ) : ℚ :=
  if 1000 < w * h then min 60 (max 30 max_size_km) else max_size_km

/-- Grid count along the x axis: num_x = ceil(width_km / max_size_km)
after adaptive sizing (backend line 327). -/
def gridNx (c max_size_km : ℚ) (bb : Rect) : ℕ :=
  (⌈widthKm c bb / adaptMaxSize max_size_km (widthKm c bb) (heightKm bb)⌉).toNat

/-- Grid count along the y axis: num_y = ceil(height_km / max_size_km)
after adaptive sizing (backend line 328). -/
def gridNy (c max_size_km : ℚ) (bb : Rect) : ℕ :=
  (⌈heightKm bb / adaptMaxSize max_size_km (widthKm c bb) (heightKm bb)⌉).toNat

/-- Longitude step of the grid: step_x = (maxx - minx) / num_x (backend line 329). -/
def stepX (bb : Rect) (nx : ℕ) : ℚ := (bb.maxx - bb.minx) / nx

/-- Latitude step of the grid: step_y = (maxy - miny) / num_y (backend line 330). -/
def stepY (bb : Rect) (ny : ℕ) : ℚ := (bb.maxy - bb.miny) / ny

/-- Sub-rectangle (i, j) of the grid (backend lines 335-339). -/
def subRect (bb : Rect) (nx ny i j : ℕ) : Rect :=
  Rect.mk (bb.minx + i * stepX bb nx) (bb.miny + j * stepY bb ny)
    (bb.minx + (i + 1) * stepX bb nx) (bb.miny + (j + 1) * stepY bb ny)

/-- All grid sub-rectangles, in the nested loop order of backend lines
333-339, before the polygon-intersection filter. -/
def gridRects (bb : Rect) (nx ny : ℕ) : List Rect :=
  (List.range nx).flatMap (fun i => (List.range ny).map (fun j => subRect bb nx ny i j))

/-- Models split_boundary_box (backend lines 312-342).  The parameter
inter stands for the shapely test rect.intersects(total_shapely_polygon);
c stands for the cosine of the middle latitude.  A box small enough in
both directions is returned whole, with no intersection check; otherwise
the grid rectangles that pass the intersection test are returned. -/
def split_boundary_box (c : ℚ) (inter : Rect → Bool) (bb : Rect) (max_size_km : ℚ) : List Rect :=
  if widthKm c bb ≤ max_size_km ∧ heightKm bb ≤ max_size_km then [bb]
  else (gridRects bb (gridNx c max_size_km bb) (gridNy c max_size_km bb)).filter inter

/-- Membership of the point (x, y) in the closed rectangle r. -/
def memClosed (r : Rect) (x y : ℚ) : Prop :=
  r.minx ≤ x ∧ x ≤ r.maxx ∧ r.miny ≤ y ∧ y ≤ r.maxy

/-- Membership of the point (x, y) in the open interior of the rectangle r. -/
def memInterior (r : Rect) (x y : ℚ) : Prop :=
  r.minx < x ∧ x < r.maxx ∧ r.miny < y ∧ y < r.maxy

/-- Outcome of one download attempt in export_sub_polygon_as_png: an HTTP
200 with a decodable body, a non-200 status, or a raised transport error
(covering both getDownloadURL and requests.get failures). -/
inductive Attempt where
  | ok (image : String)
  | httpError (status : Nat)
  | transportError (message : String)
deriving DecidableEq

/-- Whether an attempt outcome is the success case. -/
def isOk : Attempt → Bool
  | .ok _ => true
  | _ => false

/-- Models the retry loop of export_sub_polygon_as_png (backend lines
359-370).  The oracle gives the outcome of each attempt by index; the
result carries the returned image (or none), the number of attempts made,
and the total seconds slept (time.sleep(2) after every failed attempt). -/
def exportLoop (oracle : Nat → Attempt) : Nat → Nat → Option String × Nat × Nat
  | _, 0 => (none, 0, 0)
  | k, fuel + 1 =>
    match oracle k with
    | .ok image => (some image, 1, 0)
    | _ =>
      let rest := exportLoop oracle (k + 1) fuel
      (rest.1, rest.2.1 + 1, rest.2.2 + 2)

/-- Models export_sub_polygon_as_png (backend lines 344-370) restricted to
its observable retry behaviour: for retry in range(max_retries), return the
decoded image on a 200 response, otherwise sleep 2 seconds and retry;
return None after the loop. -/
def export_sub_polygon_as_png (oracle : Nat → Attempt) (max_retries : Nat) :
    Option String × Nat × Nat :=
  exportLoop oracle 0 max_retries

/-- One successful tile fetch as assembled by process_sub_polygon
(backend lines 372-379): index, sub-rectangle, and the decoded image
(kept abstract as a token). -/
structure TileResult where
  index : Nat
  rect : Rect
  png_image : String
deriving DecidableEq

/-- Canvas sizing of merge_images_properly in the backend copy (lines
407-416): pick scale 10, or 20 when w_m * h_m exceeds 1e9; truncate to
pixels; if either dimension exceeds 5000, divide both pixel dimensions by
factor = max(w_px / 5000, h_px / 5000) and truncate. -/
def merge_canvas_dims (w_m h_m : ℚ) : ℤ × ℤ :=
  let scale : ℚ := if 1000000000 < w_m * h_m then 20 else 10
  let w_px : ℤ := ⌊w_m / scale⌋
  let h_px : ℤ := ⌊h_m / scale⌋
  if 5000 < w_px ∨ 5000 < h_px then
    (⌊(w_px : ℚ) / max ((w_px : ℚ) / 5000) ((h_px : ℚ) / 5000)⌋,
     ⌊(h_px : ℚ) / max ((w_px : ℚ) / 5000) ((h_px : ℚ) / 5000)⌋)
  else (w_px, h_px)

/-- Canvas sizing of merge_images_properly in the duplicate copy
(src/lambda/lambda_function.py lines 445-451): identical except that the
second dimension is computed as int(height_m / scale_factor), dividing the
height in meters rather than the height in pixels by the ratio. -/
def merge_canvas_dims_lambda (w_m h_m : ℚ) : ℤ × ℤ :=
  let scale : ℚ := if 1000000000 < w_m * h_m then 20 else 10
  let w_px : ℤ := ⌊w_m / scale⌋
  let h_px : ℤ := ⌊h_m / scale⌋
  if 5000 < w_px ∨ 5000 < h_px then
    (⌊(w_px : ℚ) / max ((w_px : ℚ) / 5000) ((h_px : ℚ) / 5000)⌋,
     ⌊h_m / max ((w_px : ℚ) / 5000) ((h_px : ℚ) / 5000)⌋)
  else (w_px, h_px)

/-- Models merge_images_properly (backend lines 397-441) at the level the
claims need: drop absent results; with no valid result return None;
otherwise produce the sized canvas and the output file name.  The
per-tile paste loop, boundary mask and legend only mutate the canvas and
are not observable in the claims.  The center-coordinate tag of the file
name is not modelled. -/
def merge_images_properly (bb : Rect) (cosLatMid : ℚ) (results : List (Option TileResult))
    (image_date : String) : Option (ℤ × ℤ × String) :=
  let valid := results.filterMap id
  if valid.isEmpty then none
  else
    let w_m := (bb.maxx - bb.minx) * (111000 * cosLatMid)
    let h_m := (bb.maxy - bb.miny) * 111000
    let dims := merge_canvas_dims w_m h_m
    some (dims.1, dims.2, image_date ++ "-natural_forest_classification.png")

/-- Models process_and_export_image (backend lines 443-457): the worker
pool harvest keeps only non-None results and merge_images_properly is
applied; the composition equals applying the merge directly to the raw
per-tile outcomes. -/
def process_and_export_image (bb : Rect) (cosLatMid : ℚ)
    (fetchResults : List (Option TileResult)) (image_date : String) :
    Option (ℤ × ℤ × String) :=
  merge_images_properly bb cosLatMid fetchResults image_date

/-- Models the duplicate process_and_export_image
(src/lambda/lambda_function.py lines 488-515), which returns None itself
when no results were collected and otherwise merges with the duplicate
canvas sizing. -/
def process_and_export_image_lambda (bb : Rect) (cosLatMid : ℚ)
    (fetchResults : List (Option TileResult)) (image_date : String) :
    Option (ℤ × ℤ × String) :=
  let collected := fetchResults.filterMap id
  if collected.isEmpty then none
  else
    let w_m := (bb.maxx - bb.minx) * (111000 * cosLatMid)
    let h_m := (bb.maxy - bb.miny) * 111000
    let dims := merge_canvas_dims_lambda w_m h_m
    some (dims.1, dims.2, image_date ++ "-natural_forest_classification.png")

/-- Year-month string of a YYYY-MM-DD date: models
strftime of the strptime result in get_protected_areas (backend lines
483-487). -/
def yyyymm_of (d : String) : String :=
  ((d.toList.take 4) ++ ((d.toList.drop 5).take 2)).asString

/-- WDPA collection path derived from the acquisition date (backend line 488). -/
def wdpaPath (d : String) : String := "WCMC/WDPA/" ++ yyyymm_of d ++ "/polygons"

/-- The protected-area mask result: the boundary it was clipped to and the
WDPA collection it was reduced from (backend lines 490-498). -/
structure PAMask where
  boundary_wkt : String
  path : String
deriving DecidableEq

/-- The remote computation performed on a cache miss of
get_protected_areas: depends on the boundary and, through the WDPA path,
only on the year-month of the date. -/
def compute_protected_areas (boundary_wkt d : String) : PAMask :=
  PAMask.mk boundary_wkt (wdpaPath d)

/-- State of the lru_cache on get_protected_areas, modelled as an
association list over the full argument tuple (boundary_wkt,
target_date_str).  The maxsize 32 eviction never triggers in the small
scenarios considered. -/
def PACache : Type := List ((String × String) × PAMask)

/-- Lookup in the cache by exact key. -/
def cacheLookup (c : PACache) (k : String × String) : Option PAMask :=
  match c.find? (fun e => e.1 == k) with
  | some e => some e.2
  | none => none

/-- Models the lru_cache wrapper of get_protected_areas (backend lines
480-498): the cache key is the full (boundary_wkt, target_date_str) pair;
the Bool in the result records whether the remote computation ran. -/
def get_protected_areas (c : PACache) (boundary_wkt d : String) :
    PAMask × PACache × Bool :=
  match cacheLookup c (boundary_wkt, d) with
  | some v => (v, c, false)
  | none =>
    (compute_protected_areas boundary_wkt d,
     ((boundary_wkt, d), compute_protected_areas boundary_wkt d) :: c, true)

/-- The allowed characters of sanitize_filename (backend line 246). -/
def safeChars : List Char :=
  "abcdefghijklmnopqrstuvwxyzABCDEFGHIJKLMNOPQRSTUVWXYZ0123456789._-".toList

/-- Models os.path.basename on POSIX: the suffix after the last slash. -/
def basenameChars : List Char → List Char :=
  List.foldl (fun acc ch => if ch = '/' then [] else acc.concat ch) []

/-- Models os.path.basename applied to a file name string. -/
def basename (s : String) : String := String.mk (basenameChars s.toList)

/-- Models sanitize_filename (backend lines 244-247): strip the path with
basename, then keep safe characters and replace every other character by
an underscore. -/
def sanitize_filename (s : String) : String :=
  String.mk ((basename s).toList.map (fun ch => if ch ∈ safeChars then ch else '_'))

/-- Environment of one analysis run, collecting every remote response the
control flow of process_natural_forest_classification consumes: the
filtered Sentinel-2 scene count, the lowest cloud cover among them, the
acquisition date, the Dynamic World scene count, the boundary box with the
cosine of its middle latitude, the per-tile fetch outcomes, and the
region-wide histogram with the JSON ground-truth area. -/
structure RunEnv where
  s2Count : Nat
  cloudCover : ℚ
  imageDate : String
  dwCount : Nat
  bb : Rect
  cosLatMid : ℚ
  fetchResults : List (Option TileResult)
  statsHist : List (Nat × ℚ)
  correctArea : ℚ
deriving DecidableEq

/-- Result of process_natural_forest_classification: None (aborted before
any artifact), or the tuple (image_file, stats, image_date). -/
inductive ProcResult where
  | aborted
  | produced (image : Option (ℤ × ℤ × String)) (stats : StatsData) (date : String)
deriving DecidableEq

/-- Models process_natural_forest_classification in the backend copy
(lines 255-309): abort on zero Sentinel-2 scenes, abort when the lowest
cloud cover exceeds 1, abort on zero Dynamic World scenes, otherwise
compute statistics and the exported image. -/
def process_natural_forest_classification (env : RunEnv) : ProcResult :=
  if env.s2Count = 0 then .aborted
  else if 1 < env.cloudCover then .aborted
  else if env.dwCount = 0 then .aborted
  else
    .produced
      (process_and_export_image env.bb env.cosLatMid env.fetchResults env.imageDate)
      (calculate_area_statistics env.statsHist env.correctArea env.imageDate).1
      env.imageDate

/-- Models process_natural_forest_classification in the duplicate copy
(src/lambda/lambda_function.py lines 252-310): the cloud cover is fetched
and printed (lines 271-274) but no abort on it exists; only zero scene
counts abort. -/
def process_natural_forest_classification_lambda (env : RunEnv) : ProcResult :=
  if env.s2Count = 0 then .aborted
  else if env.dwCount = 0 then .aborted
  else
    .produced
      (process_and_export_image_lambda env.bb env.cosLatMid env.fetchResults env.imageDate)
      (calculate_area_statistics env.statsHist env.correctArea env.imageDate).1
      env.imageDate

/-- Response classes of the analysis branch of lambda_handler: a 400
client error with a message, a 500 from a raised exception, or a 200
success carrying the artifacts. -/
inductive AnalysisOutcome where
  | clientError (message : String)
  | serverError
  | success (image : ℤ × ℤ × String) (stats : StatsData)
deriving DecidableEq

/-- Models the analysis branch of the backend lambda_handler after
process_natural_forest_classification returns (lines 156-199 and the
except clause at 218-226): a None result yields the 400 cloud-cover
message; otherwise the image file is uploaded first — the S3 client
(external collaborator) raises on a None file name, which the handler
surfaces as a 500 — and a present image yields the success response. -/
def lambda_handler_analysis (r : ProcResult) : AnalysisOutcome :=
  match r with
  | .aborted => .clientError "Cloud cover too high—try another range"
  | .produced image stats _ =>
    match image with
    | none => .serverError
    | some f => .success f stats

/-- Rewriting the ceiling through the floor, for concrete evaluation. -/
theorem ceil_as_floor (q : ℚ) : ⌈q⌉ = -⌊-q⌋ := by
  rw [Int.floor_neg, neg_neg]

/-- Rounding of zero is zero. -/
theorem pyRound5_zero : pyRound5 0 = 0 := by
  norm_num [pyRound5, pyRound]

/-- C10: for every input string, sanitize_filename keeps only ASCII
letters, digits, dot, underscore and hyphen; it is basename followed by
character replacement, slashes and backslashes never survive, and the
derived S3 key uploads/(filename) contains exactly the one slash of the
prefix, so it cannot escape the uploads/ prefix. -/
theorem sanitize_filename_safe (s : String) :
    sanitize_filename s =
      String.mk ((basename s).toList.map (fun ch => if ch ∈ safeChars then ch else '_')) ∧
    (∀ ch ∈ (sanitize_filename s).toList, ch ∈ safeChars) ∧
    (∀ ch ∈ (sanitize_filename s).toList, ch ≠ '/' ∧ ch ≠ '\\') ∧
    (("uploads/" ++ sanitize_filename s).toList.filter (fun ch => ch = '/')).length = 1 := by
  have hmem : ∀ ch ∈ (sanitize_filename s).toList, ch ∈ safeChars := by
    intro ch hch
    have hch2 : ch ∈ (basename s).toList.map (fun c => if c ∈ safeChars then c else '_') := hch
    obtain ⟨c, _, hc⟩ := List.mem_map.mp hch2
    by_cases hcs : c ∈ safeChars
    · rw [if_pos hcs] at hc; rw [← hc]; exact hcs
    · rw [if_neg hcs] at hc; rw [← hc]; decide
  have hslash : ∀ ch ∈ (sanitize_filename s).toList, ch ≠ '/' ∧ ch ≠ '\\' := by
    intro ch hch
    have hsafe := hmem ch hch
    have : ∀ c ∈ safeChars, c ≠ '/' ∧ c ≠ '\\' := by decide
    exact this ch hsafe
  refine ⟨rfl, hmem, hslash, ?_⟩
  have happ : ("uploads/" ++ sanitize_filename s).toList =
      "uploads/".toList ++ (sanitize_filename s).toList := by
    simp [String.toList, String.data_append]
  rw [happ, List.filter_append, List.length_append]
  have hnil : (sanitize_filename s).toList.filter (fun ch => ch = '/') = [] := by
    apply List.filter_eq_nil_iff.mpr
    intro ch hch
    simp only [decide_eq_true_eq]
    exact (hslash ch hch).1
  rw [hnil]
  decide

/-- C8 helper: if every attempt in the window fails, the loop returns
None after making every attempt, sleeping two seconds each time. -/
theorem exportLoop_all_fail (oracle : Nat → Attempt) :
    ∀ fuel k, (∀ i, i < fuel → isOk (oracle (k + i)) = false) →
      exportLoop oracle k fuel = (none, fuel, 2 * fuel) := by
  intro fuel
  induction fuel with
  | zero => intro k _; rfl
  | succ n ih =>
    intro k h
    have h0 : isOk (oracle k) = false := by simpa using h 0 (Nat.succ_pos n)
    have hrec : exportLoop oracle (k + 1) n = (none, n, 2 * n) := by
      apply ih
      intro i hi
      have := h (i + 1) (by omega)
      have heq : k + (i + 1) = k + 1 + i := by omega
      rwa [heq] at this
    cases hc : oracle k with
    | ok img => rw [hc] at h0; simp [isOk] at h0
    | httpError st =>
      simp only [exportLoop, hc, hrec]
      refine Prod.ext rfl (Prod.ext ?_ ?_) <;> (simp; try omega)
    | transportError msg =>
      simp only [exportLoop, hc, hrec]
      refine Prod.ext rfl (Prod.ext ?_ ?_) <;> (simp; try omega)

/-- C8 helper: the loop stops at the first successful attempt. -/
theorem exportLoop_first_success (oracle : Nat → Attempt) :
    ∀ fuel k j img, j < fuel → (∀ i, i < j → isOk (oracle (k + i)) = false) →
      oracle (k + j) = .ok img →
      exportLoop oracle k fuel = (some img, j + 1, 2 * j) := by
  intro fuel
  induction fuel with
  | zero => intro k j img hj; omega
  | succ n ih =>
    intro k j img hj hfail hok
    cases j with
    | zero =>
      rw [Nat.add_zero] at hok
      simp only [exportLoop, hok]
    | succ m =>
      have h0 : isOk (oracle k) = false := by simpa using hfail 0 (Nat.succ_pos m)
      have hrec : exportLoop oracle (k + 1) n = (some img, m + 1, 2 * m) := by
        apply ih (k + 1) m img (by omega)
        · intro i hi
          have := hfail (i + 1) (by omega)
          have heq : k + (i + 1) = k + 1 + i := by omega
          rwa [heq] at this
        · have heq : k + (m + 1) = k + 1 + m := by omega
          rwa [heq] at hok
      cases hc : oracle k with
      | ok img2 => rw [hc] at h0; simp [isOk] at h0
      | httpError st =>
        simp only [exportLoop, hc, hrec]
        refine Prod.ext rfl (Prod.ext ?_ ?_) <;> (simp; try omega)
      | transportError msg =>
        simp only [exportLoop, hc, hrec]
        refine Prod.ext rfl (Prod.ext ?_ ?_) <;> (simp; try omega)

/-- C8: export_sub_polygon_as_png returns None after exactly max_retries
failed attempts, each failure (non-200 status or transport error)
followed by a 2-second sleep; and it returns the decoded raster on the
first succeeding attempt, making no further attempts. -/
theorem export_retry_policy (oracle : Nat → Attempt) (max_retries : Nat) :
    ((∀ k, k < max_retries → isOk (oracle k) = false) →
      export_sub_polygon_as_png oracle max_retries = (none, max_retries, 2 * max_retries)) ∧
    (∀ j img, j < max_retries → (∀ k, k < j → isOk (oracle k) = false) →
      oracle j = Attempt.ok img →
      export_sub_polygon_as_png oracle max_retries = (some img, j + 1, 2 * j)) := by
  constructor
  · intro h
    apply exportLoop_all_fail
    intro i hi
    simpa using h i hi
  · intro j img hj hfail hok
    apply exportLoop_first_success oracle max_retries 0 j img hj
    · intro i hi
      simpa using hfail i hi
    · simpa using hok

/-- C8 witness: with the default max_retries = 3, an always-failing
oracle yields None after 3 attempts and 6 seconds of sleep, and an oracle
failing once then succeeding yields the raster after 2 attempts. -/
theorem export_retry_policy_instance :
    export_sub_polygon_as_png (fun _ => Attempt.transportError "timeout") 3 = (none, 3, 6) ∧
    export_sub_polygon_as_png (fun k => if k = 0 then Attempt.httpError 500 else Attempt.ok "raster") 3 =
      (some "raster", 2, 2) := by
  constructor
  · have h := (export_retry_policy (fun _ => Attempt.transportError "timeout") 3).1
      (fun k _ => rfl)
    simpa using h
  · have h := (export_retry_policy
        (fun k => if k = 0 then Attempt.httpError 500 else Attempt.ok "raster") 3).2 1 "raster"
      (by omega) (fun k hk => by interval_cases k; rfl) (by simp)
    simpa using h

/-- C9 counterexample: two acquisition dates in the same calendar month
but with different date strings are distinct lru_cache keys, so the
second get_protected_areas call is a cache miss and runs the remote
computation again, contrary to the claim that the cache is keyed by the
year-month. -/
theorem protected_areas_cache_month_miss :
    yyyymm_of "2024-05-01" = yyyymm_of "2024-05-20" ∧
    "2024-05-01" ≠ "2024-05-20" ∧
    (get_protected_areas
        (get_protected_areas [] "POLYGON ((0 0, 1 0, 1 1, 0 0))" "2024-05-01").2.1
        "POLYGON ((0 0, 1 0, 1 1, 0 0))" "2024-05-20").2.2 = true := by
  refine ⟨rfl, by decide, rfl⟩

/-- C9 amended: the memoization is keyed by the full (boundary geometry,
acquisition-date string) pair: a call whose exact key is cached returns
the prior result with no remote call, a call with a new key runs exactly
one remote computation and stores it, and the computed mask itself
depends on the date only through its year-month. -/
theorem protected_areas_cache_full_key (c : PACache) (bw d : String) :
    (cacheLookup c (bw, d) = none →
      get_protected_areas c bw d =
        (compute_protected_areas bw d, ((bw, d), compute_protected_areas bw d) :: c, true)) ∧
    (∀ v, cacheLookup c (bw, d) = some v → get_protected_areas c bw d = (v, c, false)) ∧
    (∀ d2, yyyymm_of d = yyyymm_of d2 →
      compute_protected_areas bw d = compute_protected_areas bw d2) := by
  refine ⟨?_, ?_, ?_⟩
  · intro h
    simp [get_protected_areas, h]
  · intro v h
    simp [get_protected_areas, h]
  · intro d2 h
    simp [compute_protected_areas, wdpaPath, h]

/-- C9 witness: on an empty cache the first call computes remotely and
stores under the full key; repeating the identical key hits the cache
with no remote call; and two same-month dates give equal masks. -/
theorem protected_areas_cache_full_key_instance :
    get_protected_areas [] "B" "2024-05-01" =
      (compute_protected_areas "B" "2024-05-01",
       (("B", "2024-05-01"), compute_protected_areas "B" "2024-05-01") :: [], true) ∧
    get_protected_areas
        ((("B", "2024-05-01"), compute_protected_areas "B" "2024-05-01") :: [])
        "B" "2024-05-01" =
      (compute_protected_areas "B" "2024-05-01",
       (("B", "2024-05-01"), compute_protected_areas "B" "2024-05-01") :: [], false) ∧
    compute_protected_areas "B" "2024-05-01" = compute_protected_areas "B" "2024-05-20" := by
  refine ⟨(protected_areas_cache_full_key [] "B" "2024-05-01").1 rfl,
    (protected_areas_cache_full_key
      ((("B", "2024-05-01"), compute_protected_areas "B" "2024-05-01") :: [])
      "B" "2024-05-01").2.1 (compute_protected_areas "B" "2024-05-01") rfl,
    (protected_areas_cache_full_key [] "B" "2024-05-01").2.2 "2024-05-20" rfl⟩

/-- C2 counterexample: in the duplicate copy src/lambda/lambda_function.py
a run with one available scene of cloud cover 20 (past the threshold 1
and within the 35 pre-filter) does not abort: the function proceeds and
produces artifacts, so the claim fails as stated for that copy. -/
theorem process_lambda_no_cloud_abort :
    process_natural_forest_classification_lambda
        (RunEnv.mk 1 20 "2024-01-01" 1 (Rect.mk 0 0 1 1) 1
          [some (TileResult.mk 0 (Rect.mk 0 0 1 1) "png")] [] 100) ≠
      ProcResult.aborted := by
  simp [process_natural_forest_classification_lambda]

/-- C2 amended: in the backend copy, whenever at least one scene is
available and the lowest cloud cover exceeds the threshold 1,
process_natural_forest_classification aborts before computing statistics
or imagery, and the handler answers with the 400 cloud-cover message; the
duplicate copy in src/lambda performs no such check. -/
theorem process_backend_cloud_abort (env : RunEnv)
    (hs2 : env.s2Count ≠ 0) (hcloud : 1 < env.cloudCover) :
    process_natural_forest_classification env = ProcResult.aborted ∧
    lambda_handler_analysis (process_natural_forest_classification env) =
      AnalysisOutcome.clientError "Cloud cover too high—try another range" := by
  have h1 : process_natural_forest_classification env = ProcResult.aborted := by
    simp [process_natural_forest_classification, hs2, hcloud]
  exact ⟨h1, by rw [h1]; rfl⟩

/-- C2 witness: a run with one scene at cloud cover 20 aborts with the
cloud-cover response in the backend copy. -/
theorem process_backend_cloud_abort_instance :
    process_natural_forest_classification
        (RunEnv.mk 1 20 "2024-01-01" 1 (Rect.mk 0 0 1 1) 1 [] [] 100) =
      ProcResult.aborted ∧
    lambda_handler_analysis
        (process_natural_forest_classification
          (RunEnv.mk 1 20 "2024-01-01" 1 (Rect.mk 0 0 1 1) 1 [] [] 100)) =
      AnalysisOutcome.clientError "Cloud cover too high—try another range" :=
  process_backend_cloud_abort
    (RunEnv.mk 1 20 "2024-01-01" 1 (Rect.mk 0 0 1 1) 1 [] [] 100)
    (by decide) (by norm_num)

/-- C3: when every planned tile fetch fails, merge_images_properly
returns None, process_and_export_image returns None, and the run is
answered with the 500 error outcome, never with a success carrying an
artifact. -/
theorem all_tiles_failed_no_artifact (env : RunEnv)
    (hs2 : env.s2Count ≠ 0) (hcloud : ¬ 1 < env.cloudCover) (hdw : env.dwCount ≠ 0)
    (hfail : ∀ r ∈ env.fetchResults, r = none) :
    merge_images_properly env.bb env.cosLatMid env.fetchResults env.imageDate = none ∧
    process_and_export_image env.bb env.cosLatMid env.fetchResults env.imageDate = none ∧
    lambda_handler_analysis (process_natural_forest_classification env) =
      AnalysisOutcome.serverError ∧
    (∀ img stats, lambda_handler_analysis (process_natural_forest_classification env) ≠
      AnalysisOutcome.success img stats) := by
  have hnil : env.fetchResults.filterMap id = [] := by
    rw [List.filterMap_eq_nil_iff]
    intro a ha
    simpa using hfail a ha
  have hmerge : merge_images_properly env.bb env.cosLatMid env.fetchResults env.imageDate = none := by
    simp [merge_images_properly, hnil]
  have hproc : process_natural_forest_classification env =
      ProcResult.produced none
        (calculate_area_statistics env.statsHist env.correctArea env.imageDate).1
        env.imageDate := by
    simp [process_natural_forest_classification, hs2, hcloud, hdw,
      process_and_export_image, hmerge]
  refine ⟨hmerge, hmerge, ?_, ?_⟩
  · rw [hproc]; rfl
  · intro img stats
    rw [hproc]
    simp [lambda_handler_analysis]

/-- C3 witness: a run with scenes available, acceptable cloud cover and
two planned tiles that both fail produces no mosaic and a 500 outcome. -/
theorem all_tiles_failed_no_artifact_instance :
    merge_images_properly (Rect.mk 0 0 1 1) 1 [none, none] "2024-01-01" = none ∧
    process_and_export_image (Rect.mk 0 0 1 1) 1 [none, none] "2024-01-01" = none ∧
    lambda_handler_analysis
        (process_natural_forest_classification
          (RunEnv.mk 1 (1/2) "2024-01-01" 1 (Rect.mk 0 0 1 1) 1 [none, none] [] 100)) =
      AnalysisOutcome.serverError ∧
    (∀ img stats,
      lambda_handler_analysis
          (process_natural_forest_classification
            (RunEnv.mk 1 (1/2) "2024-01-01" 1 (Rect.mk 0 0 1 1) 1 [none, none] [] 100)) ≠
        AnalysisOutcome.success img stats) :=
  all_tiles_failed_no_artifact
    (RunEnv.mk 1 (1/2) "2024-01-01" 1 (Rect.mk 0 0 1 1) 1 [none, none] [] 100)
    (by decide) (by norm_num) (by decide) (by decide)

/-- C4: at a canvas of 55500 m by 111000 m (scale 20 gives 2775 by 5550
pixels, so the 5000 cap triggers with factor 1.11) the backend copy
downscales both dimensions uniformly to 2500 by 5000, while the duplicate
copy divides the height in meters by the factor and produces a 100000
pixel tall canvas, far above the 5000 cap and breaking the aspect ratio;
the claim is the evident intent and the duplicate line is the slip. -/
theorem merge_canvas_dims_divergence :
    merge_canvas_dims 55500 111000 = (2500, 5000) ∧
    merge_canvas_dims_lambda 55500 111000 = (2500, 100000) ∧
    ¬ ((100000 : ℤ) ≤ 5000) := by
  refine ⟨?_, ?_, by decide⟩
  · norm_num [merge_canvas_dims, max_def]
  · norm_num [merge_canvas_dims_lambda, max_def]

/-- C7 counterexample: a one-degree box at the equator (111 km by 111 km,
area proxy 12321 over 1000, too large for a single tile) keeps the
effective tile extent at exactly 30 under the default max_size_km = 30:
the adaptive line widens nothing, and num_x equals the fixed 30-km grid
count 4. -/
theorem adapt_max_size_no_widening :
    ¬ (widthKm 1 (Rect.mk 0 0 1 1) ≤ 30 ∧ heightKm (Rect.mk 0 0 1 1) ≤ 30) ∧
    1000 < widthKm 1 (Rect.mk 0 0 1 1) * heightKm (Rect.mk 0 0 1 1) ∧
    adaptMaxSize 30 (widthKm 1 (Rect.mk 0 0 1 1)) (heightKm (Rect.mk 0 0 1 1)) = 30 ∧
    ¬ (30 < adaptMaxSize 30 (widthKm 1 (Rect.mk 0 0 1 1)) (heightKm (Rect.mk 0 0 1 1))) ∧
    gridNx 1 30 (Rect.mk 0 0 1 1) = (⌈widthKm 1 (Rect.mk 0 0 1 1) / 30⌉).toNat ∧
    gridNx 1 30 (Rect.mk 0 0 1 1) = 4 := by
  have hw : widthKm 1 (Rect.mk 0 0 1 1) = 111 := by norm_num [widthKm]
  have hh : heightKm (Rect.mk 0 0 1 1) = 111 := by norm_num [heightKm]
  have hadapt : adaptMaxSize 30 (111 : ℚ) 111 = 30 := by
    rw [adaptMaxSize, if_pos (by norm_num), max_self, min_eq_right (by norm_num)]
  have hceil : (⌈(111 : ℚ) / 30⌉) = 4 := by
    rw [ceil_as_floor]
    norm_num
  refine ⟨by rw [hw]; norm_num, by rw [hw, hh]; norm_num, by rw [hw, hh]; exact hadapt,
    by rw [hw, hh, hadapt]; norm_num, ?_, ?_⟩
  · rw [gridNx, hw, hh, hadapt]
  · rw [gridNx, hw, hh, hadapt, hceil]
    rfl

/-- C7 amended: for a box too large for one tile with area proxy above
1000, the adaptive line merely clamps the default max_size_km = 30 into
the interval from 30 to 60, which leaves it at exactly 30, so the grid
counts and the returned tiling coincide with the fixed 30-km grid. -/
theorem adapt_max_size_clamp_identity (c : ℚ) (inter : Rect → Bool) (bb : Rect)
    (hno : ¬ (widthKm c bb ≤ 30 ∧ heightKm bb ≤ 30))
    (hbig : 1000 < widthKm c bb * heightKm bb) :
    adaptMaxSize 30 (widthKm c bb) (heightKm bb) = 30 ∧
    gridNx c 30 bb = (⌈widthKm c bb / 30⌉).toNat ∧
    gridNy c 30 bb = (⌈heightKm bb / 30⌉).toNat ∧
    split_boundary_box c inter bb 30 =
      (gridRects bb ((⌈widthKm c bb / 30⌉).toNat) ((⌈heightKm bb / 30⌉).toNat)).filter inter := by
  have hadapt : adaptMaxSize 30 (widthKm c bb) (heightKm bb) = 30 := by
    rw [adaptMaxSize, if_pos hbig, max_self, min_eq_right (by norm_num)]
  have hnx : gridNx c 30 bb = (⌈widthKm c bb / 30⌉).toNat := by
    rw [gridNx, hadapt]
  have hny : gridNy c 30 bb = (⌈heightKm bb / 30⌉).toNat := by
    rw [gridNy, hadapt]
  refine ⟨hadapt, hnx, hny, ?_⟩
  rw [split_boundary_box, if_neg hno, hnx, hny]

/-- C7 witness: the equatorial one-degree box with the always-true
intersection test has the fixed 30-km tiling. -/
theorem adapt_max_size_clamp_identity_instance :
    adaptMaxSize 30 (widthKm 1 (Rect.mk 0 0 1 1)) (heightKm (Rect.mk 0 0 1 1)) = 30 ∧
    gridNx 1 30 (Rect.mk 0 0 1 1) = (⌈widthKm 1 (Rect.mk 0 0 1 1) / 30⌉).toNat ∧
    gridNy 1 30 (Rect.mk 0 0 1 1) = (⌈heightKm (Rect.mk 0 0 1 1) / 30⌉).toNat ∧
    split_boundary_box 1 (fun _ => true) (Rect.mk 0 0 1 1) 30 =
      (gridRects (Rect.mk 0 0 1 1) ((⌈widthKm 1 (Rect.mk 0 0 1 1) / 30⌉).toNat)
        ((⌈heightKm (Rect.mk 0 0 1 1) / 30⌉).toNat)).filter (fun _ => true) :=
  adapt_max_size_clamp_identity 1 (fun _ => true) (Rect.mk 0 0 1 1)
    (by norm_num [widthKm, heightKm]) (by norm_num [widthKm, heightKm])

/-- C6 counterexample: a box small enough for the single-tile branch is
returned whole with no intersection check, so with a boundary polygon
disjoint from the box (modelled by the constantly false intersection
test, as for an empty polygon) the returned tile does not intersect the
polygon, contrary to the claim. -/
theorem split_single_tile_skips_intersection_check :
    split_boundary_box 1 (fun _ => false) (Rect.mk 0 (-(1/20)) (1/10) (1/20)) 30 =
      [Rect.mk 0 (-(1/20)) (1/10) (1/20)] ∧
    (fun _ : Rect => false) (Rect.mk 0 (-(1/20)) (1/10) (1/20)) = false := by
  constructor
  · rw [split_boundary_box, if_pos]
    constructor
    · norm_num [widthKm]
    · norm_num [heightKm]
  · rfl

/-- C6 amended: on the grid path (box too large for a single tile) every
tile returned by split_boundary_box passes the polygon-intersection test;
the single-tile branch returns the box unchecked. -/
theorem split_grid_tiles_intersect (c max_size_km : ℚ) (inter : Rect → Bool) (bb : Rect)
    (hno : ¬ (widthKm c bb ≤ max_size_km ∧ heightKm bb ≤ max_size_km)) :
    ∀ r ∈ split_boundary_box c inter bb max_size_km, inter r = true := by
  intro r hr
  rw [split_boundary_box, if_neg hno] at hr
  exact (List.mem_filter.mp hr).2

/-- C6 witness: on the equatorial one-degree box, which takes the grid
path, every tile in the returned list passes the intersection test used
to filter it. -/
theorem split_grid_tiles_intersect_instance :
    ((split_boundary_box 1 (fun r => decide (0 ≤ r.minx)) (Rect.mk 0 0 1 1) 30).all
      (fun r => decide (0 ≤ r.minx))) = true := by
  rw [List.all_eq_true]
  intro r hr
  exact split_grid_tiles_intersect 1 30 (fun r => decide (0 ≤ r.minx)) (Rect.mk 0 0 1 1)
    (by norm_num [widthKm, heightKm]) r hr

/-- C1: for every class-code histogram (distinct keys among the 11 class
codes, nonnegative counts) pixel_sum is the sum of all histogram counts,
each class area is round((count / pixel_sum) * ground_truth_area, 5) when
pixel_sum is positive and 0 otherwise with absent classes at 0; and on
the histogram with trees 40, natural_forest 10, water 50 and ground
truth area 100 the stats are natural_forest_km2 10, other_trees_km2 40,
forest_area_km2 50, natural_forest_percentage 20, other_trees_percentage
80. -/
theorem calculate_area_statistics_proportional :
    (∀ (hist : List (Nat × ℚ)) (A : ℚ),
      (hist.map Prod.fst).Nodup →
      (∀ p ∈ hist, p.1 < 11) →
      (∀ p ∈ hist, 0 ≤ p.2) →
      pixelSum hist = (hist.map Prod.snd).sum ∧
      (∀ i, i < 11 →
        classArea hist A i =
          if 0 < pixelSum hist then pyRound5 (classCount hist i / pixelSum hist * A) else 0) ∧
      (∀ i, i < 11 → (∀ p ∈ hist, p.1 ≠ i) → classArea hist A i = 0)) ∧
    ((calculate_area_statistics [(1, 40), (10, 10), (0, 50)] 100 "2024-01-01").1.natural_forest_km2 = 10 ∧
     (calculate_area_statistics [(1, 40), (10, 10), (0, 50)] 100 "2024-01-01").1.other_trees_km2 = 40 ∧
     (calculate_area_statistics [(1, 40), (10, 10), (0, 50)] 100 "2024-01-01").1.forest_area_km2 = 50 ∧
     (calculate_area_statistics [(1, 40), (10, 10), (0, 50)] 100 "2024-01-01").1.natural_forest_percentage = 20 ∧
     (calculate_area_statistics [(1, 40), (10, 10), (0, 50)] 100 "2024-01-01").1.other_trees_percentage = 80) := by
  constructor
  · intro hist A hnodup hkeys hnn
    refine ⟨?_, ?_, ?_⟩
    · rw [pixelSum, List.filter_eq_self.mpr]
      intro p hp
      simpa using hkeys p hp
    · intro i hi
      by_cases hp : classPresent hist i
      · have hps0 : 0 ≤ pixelSum hist := by
          apply List.sum_nonneg
          intro q hq
          obtain ⟨r, hr, hrq⟩ := List.mem_map.mp hq
          have hr2 : r ∈ hist := (List.mem_filter.mp hr).1
          rw [← hrq]
          exact hnn r hr2
        by_cases hzero : pixelSum hist = 0
        · rw [classArea, if_pos hp, if_neg (not_not.mpr hzero),
            if_neg (by rw [hzero]; exact lt_irrefl 0)]
        · have hpos : 0 < pixelSum hist := lt_of_le_of_ne hps0 (Ne.symm hzero)
          rw [classArea, if_pos hp, if_pos hzero, if_pos hpos]
      · have hnone : hist.find? (fun p => p.1 == i) = none := by
          rw [classPresent] at hp
          cases hfind : hist.find? (fun p => p.1 == i) with
          | none => rfl
          | some v => rw [hfind] at hp; simp at hp
        have hcnt : classCount hist i = 0 := by rw [classCount, hnone]
        rw [classArea, if_neg hp, hcnt, zero_div, zero_mul, pyRound5_zero]
        simp
    · intro i hi habs
      have hnone : hist.find? (fun p => p.1 == i) = none := by
        rw [List.find?_eq_none]
        intro x hx
        simpa using habs x hx
      rw [classArea, classPresent, hnone]
      simp
  · have hp10 : classPresent [(1, (40 : ℚ)), (10, 10), (0, 50)] 10 = true := rfl
    have hc10 : classCount [(1, (40 : ℚ)), (10, 10), (0, 50)] 10 = 10 := rfl
    have hp1 : classPresent [(1, (40 : ℚ)), (10, 10), (0, 50)] 1 = true := rfl
    have hc1 : classCount [(1, (40 : ℚ)), (10, 10), (0, 50)] 1 = 40 := rfl
    have hflt : (([(1, (40 : ℚ)), (10, 10), (0, 50)]).filter (fun p => p.1 < 11)).map Prod.snd =
        [40, 10, 50] := rfl
    have hsum : pixelSum [(1, (40 : ℚ)), (10, 10), (0, 50)] = 100 := by
      rw [pixelSum, hflt]
      norm_num
    have ha10 : classArea [(1, (40 : ℚ)), (10, 10), (0, 50)] 100 10 = 10 := by
      rw [classArea, if_pos hp10, hsum, hc10, if_pos (show (100 : ℚ) ≠ 0 by norm_num)]
      norm_num [pyRound5, pyRound]
    have ha1 : classArea [(1, (40 : ℚ)), (10, 10), (0, 50)] 100 1 = 40 := by
      rw [classArea, if_pos hp1, hsum, hc1, if_pos (show (100 : ℚ) ≠ 0 by norm_num)]
      norm_num [pyRound5, pyRound]
    refine ⟨?_, ?_, ?_, ?_, ?_⟩ <;>
      norm_num [calculate_area_statistics, ha10, ha1, pyRound5, pyRound]

/-- C1 witness: the general part instantiated at the concrete histogram
with trees 40, natural_forest 10, water 50 and ground-truth area 100. -/
theorem calculate_area_statistics_proportional_instance :
    pixelSum [(1, (40 : ℚ)), (10, 10), (0, 50)] =
      ([(1, (40 : ℚ)), (10, 10), (0, 50)].map Prod.snd).sum ∧
    (∀ i, i < 11 →
      classArea [(1, (40 : ℚ)), (10, 10), (0, 50)] 100 i =
        if 0 < pixelSum [(1, (40 : ℚ)), (10, 10), (0, 50)] then
          pyRound5 (classCount [(1, (40 : ℚ)), (10, 10), (0, 50)] i /
            pixelSum [(1, (40 : ℚ)), (10, 10), (0, 50)] * 100)
        else 0) ∧
    (∀ i, i < 11 → (∀ p ∈ [(1, (40 : ℚ)), (10, 10), (0, 50)], p.1 ≠ i) →
      classArea [(1, (40 : ℚ)), (10, 10), (0, 50)] 100 i = 0) :=
  calculate_area_statistics_proportional.1 [(1, 40), (10, 10), (0, 50)] 100
    (by decide) (by decide) (by norm_num)

/-- C5 helper: a positive-length interval split into n equal steps covers
exactly the interval. -/
theorem cover1D (a s : ℚ) (hs : 0 < s) (n : ℕ) (hn : 1 ≤ n) (x : ℚ) :
    (a ≤ x ∧ x ≤ a + n * s) ↔
      ∃ i, i < n ∧ a + i * s ≤ x ∧ x ≤ a + (i + 1) * s := by
  constructor
  · rintro ⟨h1, h2⟩
    by_cases hend : a + ((n : ℚ) - 1) * s ≤ x
    · have hcast : ((n - 1 : ℕ) : ℚ) = (n : ℚ) - 1 := by
        have h := (Nat.cast_sub hn : ((n - 1 : ℕ) : ℚ) = (n : ℚ) - ((1 : ℕ) : ℚ))
        simpa using h
      refine ⟨n - 1, by omega, ?_, ?_⟩
      · rw [hcast]
        exact hend
      · rw [hcast, sub_add_cancel]
        exact h2
    · push_neg at hend
      have ht0 : 0 ≤ (x - a) / s := div_nonneg (by linarith) hs.le
      have hts : (x - a) / s * s = x - a := div_mul_cancel₀ _ (ne_of_gt hs)
      have hfl0 : 0 ≤ ⌊(x - a) / s⌋ := Int.floor_nonneg.2 ht0
      have hicast : (((⌊(x - a) / s⌋).toNat : ℕ) : ℚ) = ((⌊(x - a) / s⌋ : ℤ) : ℚ) := by
        exact_mod_cast congrArg (fun z : ℤ => (z : ℚ)) (Int.toNat_of_nonneg hfl0)
      have hile : (((⌊(x - a) / s⌋).toNat : ℕ) : ℚ) ≤ (x - a) / s := by
        rw [hicast]
        exact Int.floor_le _
      have hlt1 : (x - a) / s < (((⌊(x - a) / s⌋).toNat : ℕ) : ℚ) + 1 := by
        rw [hicast]
        exact_mod_cast Int.lt_floor_add_one ((x - a) / s)
      have hxlow : a + (((⌊(x - a) / s⌋).toNat : ℕ) : ℚ) * s ≤ x := by
        have hmul := mul_le_mul_of_nonneg_right hile hs.le
        rw [hts] at hmul
        linarith
      have hxhigh : x ≤ a + ((((⌊(x - a) / s⌋).toNat : ℕ) : ℚ) + 1) * s := by
        have hmul := mul_le_mul_of_nonneg_right hlt1.le hs.le
        rw [hts] at hmul
        linarith
      have hin : (⌊(x - a) / s⌋).toNat < n := by
        have h3 : (x - a) / s < (n : ℚ) - 1 := by
          rw [div_lt_iff₀ hs]
          linarith
        have h4 : (((⌊(x - a) / s⌋).toNat : ℕ) : ℚ) < (n : ℚ) := by linarith
        exact_mod_cast h4
      exact ⟨(⌊(x - a) / s⌋).toNat, hin, hxlow, hxhigh⟩
  · rintro ⟨i, hin, hlow, hhigh⟩
    constructor
    · have : (0 : ℚ) ≤ (i : ℚ) * s := mul_nonneg (by positivity) hs.le
      linarith
    · have hle : (i : ℚ) + 1 ≤ (n : ℚ) := by exact_mod_cast Nat.succ_le_of_lt hin
      have := mul_le_mul_of_nonneg_right hle hs.le
      linarith

/-- C5 helper: two distinct cells of an equal-step subdivision have
disjoint open intervals. -/
theorem disjoint1D (a s : ℚ) (hs : 0 < s) (i j : ℕ) (hij : i ≠ j) (x : ℚ)
    (hix : a + i * s < x ∧ x < a + (i + 1) * s)
    (hjx : a + j * s < x ∧ x < a + (j + 1) * s) : False := by
  obtain ⟨hi1, hi2⟩ := hix
  obtain ⟨hj1, hj2⟩ := hjx
  rcases Nat.lt_or_ge i j with h | h
  · have hle : (i : ℚ) + 1 ≤ (j : ℚ) := by exact_mod_cast Nat.succ_le_of_lt h
    have := mul_le_mul_of_nonneg_right hle hs.le
    linarith
  · have hji : j < i := by omega
    have hle : (j : ℚ) + 1 ≤ (i : ℚ) := by exact_mod_cast Nat.succ_le_of_lt hji
    have := mul_le_mul_of_nonneg_right hle hs.le
    linarith

/-- C5 helper: the grid holds exactly num_x times num_y rectangles. -/
theorem gridRects_length (bb : Rect) (nx ny : ℕ) :
    (gridRects bb nx ny).length = nx * ny := by
  have h1 : (gridRects bb nx ny).length = ((List.range nx).map (fun _ => ny)).sum := by
    rw [gridRects, List.length_flatMap]
    congr 1
    apply List.map_congr_left
    intro i _
    simp [Function.comp]
  rw [h1]
  induction nx with
  | zero => simp
  | succ k ih => simp [List.range_succ, ih, Nat.succ_mul]

/-- C5: a box fitting the maximum extent in both directions is returned
as the single tile equal to the box; otherwise the generated grid of
num_x times num_y equal-angle sub-rectangles (before the intersection
filter) has pairwise-disjoint interiors for distinct indices and its
closed cells cover exactly the box. -/
theorem split_boundary_box_partition (c max_size_km : ℚ) (inter : Rect → Bool) (bb : Rect)
    (hbx : bb.minx < bb.maxx) (hby : bb.miny < bb.maxy) (hc : 0 < c) (hm : 0 < max_size_km) :
    (widthKm c bb ≤ max_size_km ∧ heightKm bb ≤ max_size_km →
      split_boundary_box c inter bb max_size_km = [bb]) ∧
    (¬ (widthKm c bb ≤ max_size_km ∧ heightKm bb ≤ max_size_km) →
      (gridRects bb (gridNx c max_size_km bb) (gridNy c max_size_km bb)).length =
        gridNx c max_size_km bb * gridNy c max_size_km bb ∧
      (∀ i j i2 j2, i < gridNx c max_size_km bb → j < gridNy c max_size_km bb →
        i2 < gridNx c max_size_km bb → j2 < gridNy c max_size_km bb → (i, j) ≠ (i2, j2) →
        ∀ x y : ℚ,
          ¬ (memInterior (subRect bb (gridNx c max_size_km bb) (gridNy c max_size_km bb) i j) x y ∧
             memInterior (subRect bb (gridNx c max_size_km bb) (gridNy c max_size_km bb) i2 j2) x y)) ∧
      (∀ x y : ℚ, memClosed bb x y ↔
        ∃ i, i < gridNx c max_size_km bb ∧ ∃ j, j < gridNy c max_size_km bb ∧
          memClosed (subRect bb (gridNx c max_size_km bb) (gridNy c max_size_km bb) i j) x y)) := by
  constructor
  · intro h
    rw [split_boundary_box, if_pos h]
  · intro hno
    have hw : 0 < widthKm c bb := by
      rw [widthKm]
      exact mul_pos (by linarith) (mul_pos (by norm_num) hc)
    have hh : 0 < heightKm bb := by
      rw [heightKm]
      exact mul_pos (by linarith) (by norm_num)
    have hms : 0 < adaptMaxSize max_size_km (widthKm c bb) (heightKm bb) := by
      rw [adaptMaxSize]
      split
      · have h30 : (30 : ℚ) ≤ max 30 max_size_km := le_max_left _ _
        exact lt_min (by norm_num) (by linarith)
      · exact hm
    have hnx1 : 1 ≤ gridNx c max_size_km bb := by
      rw [gridNx]
      have hceil := Int.ceil_pos.mpr (div_pos hw hms)
      omega
    have hny1 : 1 ≤ gridNy c max_size_km bb := by
      rw [gridNy]
      have hceil := Int.ceil_pos.mpr (div_pos hh hms)
      omega
    have hnxQ : (0 : ℚ) < ((gridNx c max_size_km bb : ℕ) : ℚ) := by
      exact_mod_cast Nat.lt_of_lt_of_le Nat.zero_lt_one hnx1
    have hnyQ : (0 : ℚ) < ((gridNy c max_size_km bb : ℕ) : ℚ) := by
      exact_mod_cast Nat.lt_of_lt_of_le Nat.zero_lt_one hny1
    have hsx : 0 < stepX bb (gridNx c max_size_km bb) := by
      rw [stepX]
      exact div_pos (by linarith) hnxQ
    have hsy : 0 < stepY bb (gridNy c max_size_km bb) := by
      rw [stepY]
      exact div_pos (by linarith) hnyQ
    have hex : bb.minx + ((gridNx c max_size_km bb : ℕ) : ℚ) * stepX bb (gridNx c max_size_km bb) =
        bb.maxx := by
      rw [stepX, mul_comm, div_mul_cancel₀ _ (ne_of_gt hnxQ)]
      ring
    have hey : bb.miny + ((gridNy c max_size_km bb : ℕ) : ℚ) * stepY bb (gridNy c max_size_km bb) =
        bb.maxy := by
      rw [stepY, mul_comm, div_mul_cancel₀ _ (ne_of_gt hnyQ)]
      ring
    refine ⟨gridRects_length bb _ _, ?_, ?_⟩
    · intro i j i2 j2 hi hj hi2 hj2 hne x y hboth
      obtain ⟨hA, hB⟩ := hboth
      simp only [memInterior, subRect] at hA hB
      obtain ⟨a1, a2, a3, a4⟩ := hA
      obtain ⟨b1, b2, b3, b4⟩ := hB
      by_cases hii : i = i2
      · have hjj : j ≠ j2 := by
          intro hjeq
          exact hne (by rw [hii, hjeq])
        exact disjoint1D bb.miny (stepY bb (gridNy c max_size_km bb)) hsy j j2 hjj y
          ⟨a3, a4⟩ ⟨b3, b4⟩
      · exact disjoint1D bb.minx (stepX bb (gridNx c max_size_km bb)) hsx i i2 hii x
          ⟨a1, a2⟩ ⟨b1, b2⟩
    · intro x y
      have hxiff := cover1D bb.minx (stepX bb (gridNx c max_size_km bb)) hsx
        (gridNx c max_size_km bb) hnx1 x
      have hyiff := cover1D bb.miny (stepY bb (gridNy c max_size_km bb)) hsy
        (gridNy c max_size_km bb) hny1 y
      rw [hex] at hxiff
      rw [hey] at hyiff
      simp only [memClosed, subRect]
      constructor
      · rintro ⟨h1, h2, h3, h4⟩
        obtain ⟨i, hi, hix1, hix2⟩ := hxiff.mp ⟨h1, h2⟩
        obtain ⟨j, hj, hjy1, hjy2⟩ := hyiff.mp ⟨h3, h4⟩
        exact ⟨i, hi, j, hj, hix1, hix2, hjy1, hjy2⟩
      · rintro ⟨i, hi, j, hj, m1, m2, m3, m4⟩
        have hx2 := hxiff.mpr ⟨i, hi, m1, m2⟩
        have hy2 := hyiff.mpr ⟨j, hj, m3, m4⟩
        exact ⟨hx2.1, hx2.2, hy2.1, hy2.2⟩

/-- C5 witness: the equatorial one-degree box at max_size_km 30 takes the
grid branch and the partition properties hold there. -/
theorem split_boundary_box_partition_instance :
    (widthKm 1 (Rect.mk 0 0 1 1) ≤ 30 ∧ heightKm (Rect.mk 0 0 1 1) ≤ 30 →
      split_boundary_box 1 (fun _ => true) (Rect.mk 0 0 1 1) 30 = [Rect.mk 0 0 1 1]) ∧
    (¬ (widthKm 1 (Rect.mk 0 0 1 1) ≤ 30 ∧ heightKm (Rect.mk 0 0 1 1) ≤ 30) →
      (gridRects (Rect.mk 0 0 1 1) (gridNx 1 30 (Rect.mk 0 0 1 1))
          (gridNy 1 30 (Rect.mk 0 0 1 1))).length =
        gridNx 1 30 (Rect.mk 0 0 1 1) * gridNy 1 30 (Rect.mk 0 0 1 1) ∧
      (∀ i j i2 j2, i < gridNx 1 30 (Rect.mk 0 0 1 1) → j < gridNy 1 30 (Rect.mk 0 0 1 1) →
        i2 < gridNx 1 30 (Rect.mk 0 0 1 1) → j2 < gridNy 1 30 (Rect.mk 0 0 1 1) →
        (i, j) ≠ (i2, j2) → ∀ x y : ℚ,
          ¬ (memInterior (subRect (Rect.mk 0 0 1 1) (gridNx 1 30 (Rect.mk 0 0 1 1))
                (gridNy 1 30 (Rect.mk 0 0 1 1)) i j) x y ∧
             memInterior (subRect (Rect.mk 0 0 1 1) (gridNx 1 30 (Rect.mk 0 0 1 1))
                (gridNy 1 30 (Rect.mk 0 0 1 1)) i2 j2) x y)) ∧
      (∀ x y : ℚ, memClosed (Rect.mk 0 0 1 1) x y ↔
        ∃ i, i < gridNx 1 30 (Rect.mk 0 0 1 1) ∧ ∃ j, j < gridNy 1 30 (Rect.mk 0 0 1 1) ∧
          memClosed (subRect (Rect.mk 0 0 1 1) (gridNx 1 30 (Rect.mk 0 0 1 1))
            (gridNy 1 30 (Rect.mk 0 0 1 1)) i j) x y)) :=
  split_boundary_box_partition 1 30 (fun _ => true) (Rect.mk 0 0 1 1)
    (by norm_num) (by norm_num) (by norm_num) (by norm_num)
